import Mathlib

/-!
Verification of the response-flattening and pagination logic of
`google2pandas/_panalysis_ga.py` (class `GoogleAnalyticsQuery`).

The Python code is shallowly embedded: JSON-ish dictionaries become structures
whose fields are `Option`-valued exactly where the code reads them with
`dict.get` (a missing key is `none`); fallible code (KeyError, IndexError,
AttributeError, TypeError, ValueError) returns `Except PyError`; the pandas
DataFrame is a `Table` of named columns and rows of `Value` cells.  The pandas
library itself (an external collaborator) is modelled by executable functions
on this `Table`: `pd.concat` aligns columns by name, `pd.to_numeric` parses
decimal numerals, `pd.to_datetime(·, format="%Y%m%d")` parses an eight-digit
digit string (split 4-2-2 by the greedy strptime directives) into a calendar
date inside the pandas timestamp range.
-/

set_option autoImplicit false

namespace Google2Pandas

/-- A cell of the flattened table: values arrive as strings, numeric coercion
turns them into rationals, a failed whole-column conversion leaves NaN cells,
and the date fix-up turns them into `(year, month, day)` dates. -/
inductive Value where
  | vStr : String → Value
  | vNum : Rat → Value
  | vNaN : Value
  | vDate : Nat → Nat → Nat → Value
  deriving DecidableEq, Repr

/-- The Python exceptions the flattener and fetch loop can raise. -/
inductive PyError where
  | keyError : String → PyError
  | indexError : PyError
  | attributeError : PyError
  | typeError : PyError
  | valueError : PyError
  | transportError : PyError
  deriving DecidableEq, Repr

/-- One entry of `columnHeader.metricHeader.metricHeaderEntries`; the code reads
`name` and `type` with `dict.get` and no default, so both are optional. -/
structure MetricHeaderEntry where
  name : Option String
  type : Option String
  deriving DecidableEq, Repr

/-- The `metricHeader` object of a column header. -/
structure MetricHeader where
  metricHeaderEntries : Option (List MetricHeaderEntry)
  deriving DecidableEq, Repr

/-- The `columnHeader` object of a report. -/
structure ColumnHeader where
  dimensions : Option (List String)
  metricHeader : Option MetricHeader
  deriving DecidableEq, Repr

/-- One element of a row's `metrics` list; its `values` key is read with
`m.get('values')` (no default). -/
structure MetricGroup where
  values : Option (List String)
  deriving DecidableEq, Repr

/-- One element of `data.rows`. -/
structure RowData where
  dimensions : Option (List String)
  metrics : Option (List MetricGroup)
  deriving DecidableEq, Repr

/-- The `data` object of a report. -/
structure ReportData where
  rows : Option (List RowData)
  deriving DecidableEq, Repr

/-- One report of a batchGet response. -/
structure Report where
  columnHeader : Option ColumnHeader
  data : Option ReportData
  nextPageToken : Option String
  deriving DecidableEq, Repr

/-- A batchGet response: a dictionary that may hold a `reports` list. -/
structure Response where
  reports : Option (List Report)
  deriving DecidableEq, Repr

/-- The pandas DataFrame, reduced to what the code observes: an ordered list of
column names and rows of cells positionally aligned with the columns. -/
structure Table where
  columns : List String
  rows : List (List Value)
  deriving DecidableEq, Repr

/-- `pd.DataFrame()`: no columns, no rows. -/
def emptyTable : Table := ⟨[], []⟩

/-- Python `dict` assignment `d[k] = v` on an association list: overwrite the
existing binding in place, else append. -/
def dictSet {κ β : Type} [DecidableEq κ] : List (κ × β) → κ → β → List (κ × β)
  | [], k, v => [(k, v)]
  | (k', v') :: rest, k, v =>
      if k' = k then (k, v) :: rest else (k', v') :: dictSet rest k v

/-- The value a named column holds in a row (first matching column), NaN when
the name is absent: models label alignment inside `pd.concat`. -/
def colValue : List String → List Value → String → Value
  | [], _, _ => Value.vNaN
  | _, [], _ => Value.vNaN
  | c' :: cs, v :: vs, c => if c' = c then v else colValue cs vs c

/-- Re-express a row of columns `old` in the column order `new`. -/
def reindexRow (old new : List String) (r : List Value) : List Value :=
  new.map (colValue old r)

/-- `pd.concat((t1, t2), ignore_index=True)`: columns are the union in order of
first appearance; rows are aligned by column name, missing values become NaN. -/
def concatTable (t1 t2 : Table) : Table :=
  let cs := t1.columns ++ t2.columns.filter (fun c => !(decide (c ∈ t1.columns)))
  ⟨cs, t1.rows.map (reindexRow t1.columns cs) ++ t2.rows.map (reindexRow t2.columns cs)⟩

/-- The lookup table mapping a GA metric type to a frame dtype (lines 110-117). -/
def gaTypeLookup : List (String × String) :=
  [("INTEGER", "int32"), ("FLOAT", "float32"), ("CURRENCY", "float32"),
   ("PERCENT", "float32"), ("TIME", "object"), ("STRING", "object")]

/-- First-match lookup in an association list of strings. -/
def lookupStr : List (String × String) → String → Option String
  | [], _ => none
  | (k, v) :: rest, t => if k = t then some v else lookupStr rest t

/-- `lookup[m.get('type')]` (line 131): a missing key raises KeyError, a type
not in the table raises KeyError. -/
def lookupType : Option String → Except PyError String
  | some t =>
      match lookupStr gaTypeLookup t with
      | some v => .ok v
      | none => .error (.keyError t)
  | none => .error (.keyError "None")

/-- Whether `lookup[m.get('type')]` raises for this metric header entry. -/
def typeBad (m : MetricHeaderEntry) : Bool :=
  match lookupType m.type with
  | .ok _ => false
  | .error _ => true

/-- The loop of lines 128-131: append each metric's name to the column list and
record its declared dtype (the dtype map is built but never used afterwards). -/
def headerCols : List MetricHeaderEntry → List (Option String) →
    List (Option String × String) →
    Except PyError (List (Option String) × List (Option String × String))
  | [], cols, tmap => .ok (cols, tmap)
  | m :: rest, cols, tmap =>
      match lookupType m.type with
      | .ok dt => headerCols rest (cols ++ [m.name]) (dictSet tmap m.name dt)
      | .error e => .error e

/-- Python `str.replace("ga:", "")` on the character list: every non-overlapping
occurrence of `ga:` is removed, scanning left to right (line 134). -/
def stripGaList : List Char → List Char
  | [] => []
  | [c] => [c]
  | [c1, c2] => [c1, c2]
  | c1 :: c2 :: c3 :: rest =>
      if c1 = 'g' ∧ c2 = 'a' ∧ c3 = ':' then stripGaList rest
      else c1 :: stripGaList (c2 :: c3 :: rest)

/-- `x.replace("ga:", "")` on a string. -/
def stripGa (s : String) : String := String.mk (stripGaList s.data)

/-- Whether the character list contains `ga:` as a contiguous substring. -/
def containsGa : List Char → Bool
  | [] => false
  | [_] => false
  | [_, _] => false
  | c1 :: c2 :: c3 :: rest =>
      (c1 = 'g' && c2 = 'a' && c3 = ':') || containsGa (c2 :: c3 :: rest)

/-- `list(map(lambda x: x.replace("ga:", ""), cols))` (line 134); an entry that
is `None` (a metric whose `name` key was missing) raises AttributeError. -/
def stripCols : List (Option String) → Except PyError (List String)
  | [] => .ok []
  | none :: _ => .error .attributeError
  | some s :: rest =>
      match stripCols rest with
      | .ok r => .ok (stripGa s :: r)
      | .error e => .error e

/-- Lines 121-134: read the dimension names (`col_hdrs['dimensions']`, KeyError
when absent), append the metric names when a `metricHeader` key exists, then
strip `ga:` from every column name. -/
def buildCols (ch : ColumnHeader) : Except PyError (List String) :=
  match ch.dimensions with
  | none => .error (.keyError "dimensions")
  | some ds =>
      let cols0 : List (Option String) := ds.map some
      match ch.metricHeader with
      | some mh =>
          match headerCols (mh.metricHeaderEntries.getD []) cols0 [] with
          | .ok (cols1, _) => stripCols cols1
          | .error e => .error e
      | none => stripCols cols0

/-- Lines 146-147: `row_list = row_list + m.get('values')` for each metric
group; a missing `values` key yields `None` and concatenation raises TypeError. -/
def groupValues : List MetricGroup → List String → Except PyError (List String)
  | [], acc => .ok acc
  | g :: rest, acc =>
      match g.values with
      | some vs => groupValues rest (acc ++ vs)
      | none => .error .typeError

/-- Lines 142-147: a row's positional value list, dimensions first, then the
flattened metric value groups when the row has a `metrics` key. -/
def rowList (row : RowData) : Except PyError (List String) :=
  let rl := row.dimensions.getD []
  match row.metrics with
  | some gs => groupValues gs rl
  | none => .ok rl

/-- Lines 151-153: `for i, c in enumerate(cols): drow.update({c: row_list[i]})`;
reading past the end of the value list raises IndexError. -/
def drowLoop : List String → List Value → Nat → List (String × Value) →
    Except PyError (List (String × Value))
  | [], _, _, d => .ok d
  | c :: cs, vals, i, d =>
      match vals.get? i with
      | some v => drowLoop cs vals (i + 1) (dictSet d c v)
      | none => .error .indexError

/-- The enumerated-dictionary build for one row, starting at index 0. -/
def buildDrow (cols : List String) (vals : List Value) :
    Except PyError (List (String × Value)) :=
  drowLoop cols vals 0 []

/-- Lines 141-157: fold the report's rows into the per-report frame `df` by
concatenating each one-row frame built from `drow`. -/
def rowsFold (cols : List String) : List RowData → Table → Except PyError Table
  | [], df => .ok df
  | row :: rest, df =>
      match rowList row with
      | .error e => .error e
      | .ok rl =>
          match buildDrow cols (rl.map Value.vStr) with
          | .error e => .error e
          | .ok drow =>
              rowsFold cols rest
                (concatTable df ⟨drow.map Prod.fst, [drow.map Prod.snd]⟩)

/-- Decimal value of a digit list. -/
def digitsValAux (acc : Nat) : List Char → Nat
  | [] => acc
  | c :: cs => digitsValAux (acc * 10 + (c.toNat - 48)) cs

/-- Decimal value of a digit list, most significant digit first. -/
def digitsVal (cs : List Char) : Nat := digitsValAux 0 cs

/-- Unsigned numeral body accepted by the pandas numeric parser: digits with an
optional single decimal point and at least one digit. -/
def parseNumCore (cs : List Char) : Option Rat :=
  let ip := cs.takeWhile Char.isDigit
  let rest := cs.dropWhile Char.isDigit
  match rest with
  | [] => if ip.isEmpty then none else some ((digitsVal ip : Nat) : Rat)
  | '.' :: fp =>
      if fp.all Char.isDigit && !(ip.isEmpty && fp.isEmpty) then
        some ((digitsVal ip : Nat) + ((digitsVal fp : Nat) : Rat) / ((10 : Rat) ^ fp.length))
      else none
  | _ => none

/-- The `pd.to_numeric` string parser, modelled on decimal numerals with an
optional sign: the strings that parse as numbers become rationals. -/
def parseNumStr (s : String) : Option Rat :=
  match s.data with
  | '-' :: rest => (parseNumCore rest).map (fun q => -q)
  | '+' :: rest => parseNumCore rest
  | cs => parseNumCore cs

/-- `pd.to_numeric` on one cell: strings parse or fail, numbers and NaN pass,
a date cell makes the conversion fail. -/
def cellNumeric : Value → Option Value
  | .vStr s => (parseNumStr s).map Value.vNum
  | .vNum q => some (.vNum q)
  | .vNaN => some .vNaN
  | .vDate _ _ _ => none

/-- `pd.to_numeric` over a whole series: all cells convert or none do. -/
def rowNumericAux : List Value → Option (List Value)
  | [] => some []
  | v :: vs =>
      match cellNumeric v with
      | some v' => (rowNumericAux vs).map (fun r => v' :: r)
      | none => none

/-- Line 162, `out.apply(pd.to_numeric, errors='ignore', axis=1)`: the coercion
is applied to each row (`axis=1`); with `errors='ignore'` a row any of whose
cells fails to convert is returned unchanged. -/
def toNumericRows (t : Table) : Table :=
  ⟨t.columns, t.rows.map (fun r =>
    match rowNumericAux r with
    | some r' => r'
    | none => r)⟩

/-- Days of a month in the proleptic Gregorian calendar. -/
def daysInMonth (y m : Nat) : Nat :=
  if m = 2 then (if (y % 4 = 0 ∧ ¬ y % 100 = 0) ∨ y % 400 = 0 then 29 else 28)
  else if m = 4 ∨ m = 6 ∨ m = 9 ∨ m = 11 then 30 else 31

/-- A valid calendar date that a midnight pandas Timestamp can represent
(the representable days run from 1677-09-22 to 2262-04-11). -/
def validYMD (y m d : Nat) : Bool :=
  decide (1 ≤ m) && decide (m ≤ 12) && decide (1 ≤ d) && decide (d ≤ daysInMonth y m) &&
  (decide (1678 ≤ y) || (decide (y = 1677) && (decide (10 ≤ m) || (decide (m = 9) && decide (22 ≤ d))))) &&
  (decide (y ≤ 2261) || (decide (y = 2262) && (decide (m ≤ 3) || (decide (m = 4) && decide (d ≤ 11)))))

/-- `pd.to_datetime(n, format="%Y%m%d")` on an integer cell: pandas renders the
integer in decimal (eight digits, so between 10^7 and 10^8) and parses it 4-2-2. -/
def numDate (q : Rat) : Option (Nat × Nat × Nat) :=
  if q.den = 1 ∧ 10000000 ≤ q.num ∧ q.num < 100000000 then
    let n := q.num.toNat
    let y := n / 10000
    let m := n / 100 % 100
    let d := n % 100
    if validYMD y m d then some (y, m, d) else none
  else none

/-- `pd.to_datetime(s, format="%Y%m%d")` on a string cell: exactly eight digits,
split 4-2-2 into a valid representable date; anything else raises. -/
def parseDate8 (s : String) : Option (Nat × Nat × Nat) :=
  let cs := s.data
  if cs.length = 8 ∧ cs.all Char.isDigit then
    let n := digitsVal cs
    let y := n / 10000
    let m := n / 100 % 100
    let d := n % 100
    if validYMD y m d then some (y, m, d) else none
  else none

/-- `pd.to_datetime(·, format="%Y%m%d")` on one cell: NaN becomes NaT, an
existing datetime passes through, strings and integers are parsed. -/
def cellDate : Value → Option Value
  | .vStr s => (parseDate8 s).map (fun t => Value.vDate t.1 t.2.1 t.2.2)
  | .vNum q => (numDate q).map (fun t => Value.vDate t.1 t.2.1 t.2.2)
  | .vNaN => some .vNaN
  | .vDate y m d => some (.vDate y m d)

/-- Position of the first column with the given name. -/
def indexOfCol : List String → String → Option Nat
  | [], _ => none
  | c :: cs, t => if c = t then some 0 else (indexOfCol cs t).map (fun n => n + 1)

/-- Apply the date conversion to position `j` of one row. -/
def fixRowDate (j : Nat) (r : List Value) : Option (List Value) :=
  match r.get? j with
  | some v => (cellDate v).map (fun v' => r.set j v')
  | none => none

/-- Apply the date conversion to position `j` of every row; `none` models the
ValueError `pd.to_datetime` raises on the first malformed value. -/
def rowsFixDates (j : Nat) : List (List Value) → Option (List (List Value))
  | [] => some []
  | r :: rs =>
      match fixRowDate j r with
      | some r' => (rowsFixDates j rs).map (fun l => r' :: l)
      | none => none

/-- Lines 164-165: when a column named `date` exists, reparse it with
`pd.to_datetime(out['date'], format="%Y%m%d")`; a malformed value raises. -/
def fixDates (t : Table) : Except PyError Table :=
  match indexOfCol t.columns "date" with
  | none => .ok t
  | some j =>
      match rowsFixDates j t.rows with
      | some rs => .ok ⟨t.columns, rs⟩
      | none => .error .valueError

/-- Lines 120-167, the body of the per-report loop: build the column names,
build `df` from the rows, and when the row list is truthy concatenate it onto
the accumulator, re-run the numeric coercion and the date fix-up; when the row
list is `None` or empty, `out = pd.DataFrame()` replaces the accumulator with
a fresh empty frame. -/
def processReport (out : Table) (report : Report) : Except PyError Table :=
  let ch := report.columnHeader.getD ⟨none, none⟩
  match buildCols ch with
  | .error e => .error e
  | .ok cols =>
      let df : Table := ⟨cols, []⟩
      match (report.data.getD ⟨none⟩).rows with
      | some (r :: rs) =>
          match rowsFold cols (r :: rs) df with
          | .error e => .error e
          | .ok df' => fixDates (toNumericRows (concatTable out df'))
      | _ => .ok emptyTable

/-- The fold of the report loop over the whole report list. -/
def reportsFold : Table → List Report → Except PyError Table
  | t, [] => .ok t
  | t, r :: rs =>
      match processReport t r with
      | .ok t' => reportsFold t' rs
      | .error e => .error e

/-- `GoogleAnalyticsQuery.resp2frame` (lines 105-169). -/
def resp2frame (resp : Response) : Except PyError Table :=
  reportsFold emptyTable (resp.reports.getD [])

/-- One entry of the query's `reportRequests` list; the code only ever writes
its `pageToken` key, all other keys are carried through opaquely. -/
structure ReportRequest where
  pageToken : Option String
  rest : List (String × String)
  deriving DecidableEq, Repr

/-- The caller-supplied query body; the code only reads `reportRequests`,
all other keys are carried through opaquely. -/
structure Query where
  reportRequests : Option (List ReportRequest)
  rest : List (String × String)
  deriving DecidableEq, Repr

/-- Line 91, `qry['reportRequests'][0].update({'pageToken': tkn})`: KeyError
when the key is absent, IndexError when the list is empty, otherwise the first
report request's token is overwritten. -/
def setPageToken (q : Query) (tkn : String) : Except PyError Query :=
  match q.reportRequests with
  | none => .error (.keyError "reportRequests")
  | some [] => .error .indexError
  | some (r :: rs) =>
      .ok { q with reportRequests := some ({ r with pageToken := some tkn } :: rs) }

/-- The `while True` loop of lines 85-94, run against a mock service that
answers the k-th request with the k-th element of `pages` (running out of mock
pages models a transport failure).  The state carries the caller's `query`
object and the private deep copy `qry` separately: line 91 assigns into the
copy only.  Returns the pair of the loop's result — request count and the
accumulated `{'reports': ...}` response — and the caller's query object as it
stands after the call. -/
def fetchLoop : List Response → Query → Query → List Report → Nat →
    (Except PyError (Nat × Response)) × Query
  | [], caller, _, _, _ => (.error .transportError, caller)
  | page :: rest, caller, qry, acc, n =>
      match page.reports with
      | none => (.error (.keyError "reports"), caller)
      | some reps =>
          match reps with
          | [] => (.error .indexError, caller)
          | r0 :: _ =>
              let tkn := r0.nextPageToken.getD ""
              if tkn = "" then (.ok (n + 1, ⟨some (acc ++ reps)⟩), caller)
              else
                match setPageToken qry tkn with
                | .error e => (.error e, caller)
                | .ok qry' => fetchLoop rest caller qry' (acc ++ reps) (n + 1)

/-- `GoogleAnalyticsQuery.execute_query` (lines 57-103) up to the raw response:
with `all_results` the loop starts from a deep copy of the caller's query and
an empty accumulator; without it a single request is issued with the query
passed through verbatim.  The second component is the caller's query object
after the call. -/
def executeQuery (query : Query) (allResults : Bool) (pages : List Response) :
    (Except PyError (Nat × Response)) × Query :=
  if allResults then fetchLoop pages query query [] 0
  else
    match pages with
    | [] => (.error .transportError, query)
    | p :: _ => (.ok (1, p), query)


theorem dictSet_keys {κ β : Type} [DecidableEq κ] (d : List (κ × β)) (k : κ) (v : β) :
    ∀ x ∈ (dictSet d k v).map Prod.fst, x ∈ d.map Prod.fst ∨ x = k := by
  induction d with
  | nil => intro x hx; simp [dictSet] at hx; right; exact hx
  | cons p rest ih =>
      intro x hx
      obtain ⟨k', v'⟩ := p
      simp only [dictSet] at hx
      by_cases h : k' = k
      · rw [if_pos h] at hx
        simp only [List.map_cons, List.mem_cons] at hx ⊢
        rcases hx with h1 | h1
        · right; exact h1
        · left; right; exact h1
      · rw [if_neg h] at hx
        simp only [List.map_cons, List.mem_cons] at hx ⊢
        rcases hx with h1 | h1
        · left; left; exact h1
        · rcases ih x h1 with h2 | h2
          · left; right; exact h2
          · right; exact h2

theorem dictSet_fresh {κ β : Type} [DecidableEq κ] (d : List (κ × β)) (k : κ) (v : β)
    (h : ¬ k ∈ d.map Prod.fst) : dictSet d k v = d ++ [(k, v)] := by
  induction d with
  | nil => rfl
  | cons p rest ih =>
      obtain ⟨k', v'⟩ := p
      simp only [List.map_cons, List.mem_cons] at h
      push_neg at h
      obtain ⟨h1, h2⟩ := h
      simp only [dictSet]
      rw [if_neg (fun e => h1 e.symm), ih h2]
      rfl

theorem drowLoop_ok (cols : List String) :
    ∀ (vals : List Value) (i : Nat) (d : List (String × Value)),
      i + cols.length ≤ vals.length →
      cols.Nodup → (∀ c ∈ cols, ¬ c ∈ d.map Prod.fst) →
      drowLoop cols vals i d = .ok (d ++ cols.zip (vals.drop i)) := by
  induction cols with
  | nil => intro vals i d _ _ _; simp [drowLoop]
  | cons c cs ih =>
      intro vals i d hlen hnd hdisj
      have hi : i < vals.length := by simp at hlen; omega
      have hget : vals.get? i = some (vals.get ⟨i, hi⟩) := List.get?_eq_get hi
      have hdrop : vals.drop i = vals.get ⟨i, hi⟩ :: vals.drop (i + 1) :=
        List.drop_eq_getElem_cons hi
      simp only [drowLoop, hget]
      have hfresh : ¬ c ∈ d.map Prod.fst := hdisj c (by simp)
      rw [dictSet_fresh d c _ hfresh]
      rw [ih vals (i + 1) (d ++ [(c, vals.get ⟨i, hi⟩)]) (by simp at hlen ⊢; omega)
        (List.Nodup.of_cons hnd)]
      · rw [hdrop, List.zip_cons_cons, List.append_assoc]
        rfl
      · intro c' hc'
        simp only [List.map_append, List.mem_append] at *
        push_neg
        constructor
        · exact hdisj c' (by simp [hc'])
        · simp only [List.map_cons, List.map_nil, List.mem_singleton]
          intro he
          rw [he] at hc'
          exact (List.nodup_cons.mp hnd).1 hc'

theorem drowLoop_err (cols : List String) :
    ∀ (vals : List Value) (i : Nat) (d : List (String × Value)),
      i ≤ vals.length → vals.length < i + cols.length →
      drowLoop cols vals i d = .error .indexError := by
  induction cols with
  | nil => intro vals i d h1 h2; simp at h2; omega
  | cons c cs ih =>
      intro vals i d h1 h2
      by_cases hi : i < vals.length
      · have hget : vals.get? i = some (vals.get ⟨i, hi⟩) := List.get?_eq_get hi
        simp only [drowLoop, hget]
        exact ih vals (i + 1) _ (by omega) (by simp at h2 ⊢; omega)
      · have hget : vals.get? i = none := List.get?_eq_none.mpr (by omega)
        simp only [drowLoop, hget]


/-- A response whose single report declares two dimension columns but whose one
row carries a single value: the flattened value list is shorter than the
column list. -/
def shortRowResp : Response :=
  ⟨some [⟨some ⟨some ["ga:a", "ga:b"], none⟩, some ⟨some [⟨some ["x"], none⟩]⟩, none⟩]⟩

/-- Claim C3 counterexample: on a row shorter than the column list,
`resp2frame` raises an IndexError (reading `row_list[i]` past the end at
line 153) — it does not silently tolerate the mismatch. -/
theorem resp2frame_short_row_raises :
    resp2frame shortRowResp = .error .indexError ∧
    (shortRowResp.reports.getD []).length = 1 := ⟨rfl, rfl⟩

/-- Claim C3 (amended): the positional zip of lines 151-153 is asymmetric.  For
distinct column names, a value list at least as long as the column list is
silently truncated to a record of exactly the column-list length (extra
trailing values are dropped, no error); a value list shorter than the column
list raises an IndexError when the missing index is read. -/
theorem buildDrow_mismatch (cols : List String) (vals : List Value)
    (hnd : cols.Nodup) :
    (cols.length ≤ vals.length → buildDrow cols vals = .ok (cols.zip vals)) ∧
    (vals.length < cols.length → buildDrow cols vals = .error .indexError) := by
  constructor
  · intro hle
    unfold buildDrow
    rw [drowLoop_ok cols vals 0 [] (by omega) hnd (by simp)]
    simp
  · intro hlt
    exact drowLoop_err cols vals 0 [] (by omega) (by omega)

/-- Witness for `buildDrow_mismatch` at concrete inputs: a long row is
truncated, a short row raises. -/
theorem buildDrow_mismatch_witness :
    buildDrow ["a", "b"] [Value.vStr "1", Value.vStr "2", Value.vStr "3"] =
      .ok [("a", Value.vStr "1"), ("b", Value.vStr "2")] ∧
    buildDrow ["a", "b"] [Value.vStr "1"] = .error .indexError :=
  ⟨(buildDrow_mismatch ["a", "b"] [Value.vStr "1", Value.vStr "2", Value.vStr "3"]
      (by decide)).1 (by decide),
   (buildDrow_mismatch ["a", "b"] [Value.vStr "1"] (by decide)).2 (by decide)⟩

/-- A response whose single report has a column named `mega:sessions`, which
does not begin with the `ga:` prefix but contains it internally. -/
def innerGaResp : Response :=
  ⟨some [⟨some ⟨some ["mega:sessions"], none⟩, some ⟨some [⟨some ["x"], none⟩]⟩, none⟩]⟩

/-- Claim C7 counterexample: `x.replace("ga:", "")` removes every occurrence of
the substring, so the column `mega:sessions` — which does not begin with the
prefix and should be left unchanged according to the claim — comes out as
`mesessions`. -/
theorem resp2frame_inner_ga_stripped :
    resp2frame innerGaResp = .ok ⟨["mesessions"], [[Value.vStr "x"]]⟩ ∧
    "mesessions" ≠ "mega:sessions" := ⟨rfl, by decide⟩

/-- Claim C7 (amended): the column-name transform of line 134 removes every
(leftmost, non-overlapping) occurrence of the substring `ga:`, not only a
leading prefix: a name with no occurrence at all is unchanged, and a leading
occurrence is removed with stripping continuing on the remainder. -/
theorem stripGaList_removes_all (cs : List Char) :
    (containsGa cs = false → stripGaList cs = cs) ∧
    stripGaList ('g' :: 'a' :: ':' :: cs) = stripGaList cs := by
  constructor
  · induction cs using stripGaList.induct with
    | case1 => intro h; rfl
    | case2 c => intro h; rfl
    | case3 c1 c2 => intro h; rfl
    | case4 c1 c2 c3 rest hcond ih =>
        intro h
        exfalso
        simp only [containsGa, Bool.or_eq_false_iff] at h
        obtain ⟨h1, -⟩ := h
        simp only [Bool.and_eq_false_iff] at h1
        rcases hcond with ⟨e1, e2, e3⟩
        subst e1; subst e2; subst e3
        simp at h1
    | case5 c1 c2 c3 rest hcond ih =>
        intro h
        simp only [containsGa, Bool.or_eq_false_iff] at h
        obtain ⟨-, h2⟩ := h
        simp only [stripGaList, if_neg hcond]
        rw [ih h2]
  · simp [stripGaList]

/-- Witness for `stripGaList_removes_all`: `sessions` has no occurrence and is
unchanged; `ga:sessions` loses the leading occurrence. -/
theorem stripGaList_removes_all_witness :
    stripGaList "sessions".data = "sessions".data ∧
    stripGaList ('g' :: 'a' :: ':' :: "sessions".data) = stripGaList "sessions".data :=
  ⟨(stripGaList_removes_all "sessions".data).1 (by decide),
   (stripGaList_removes_all "sessions".data).2⟩


/-- `if rows:` is falsy at line 140: the `rows` key is absent or its list is
empty. -/
def rowsFalsy (r : Report) : Prop :=
  (r.data.getD ⟨none⟩).rows = none ∨ (r.data.getD ⟨none⟩).rows = some []

theorem reportsFold_append (l1 l2 : List Report) (t : Table) :
    reportsFold t (l1 ++ l2) =
      match reportsFold t l1 with
      | .ok t' => reportsFold t' l2
      | .error e => .error e := by
  induction l1 generalizing t with
  | nil => simp [reportsFold]
  | cons r rs ih =>
      simp only [List.cons_append, reportsFold]
      cases hp : processReport t r with
      | ok t' => exact ih t'
      | error e => rfl

theorem processReport_falsy (t : Table) (r : Report) (hf : rowsFalsy r)
    (hh : ∃ cols, buildCols (r.columnHeader.getD ⟨none, none⟩) = .ok cols) :
    processReport t r = .ok emptyTable := by
  obtain ⟨cols, hc⟩ := hh
  unfold processReport
  simp only [hc]
  rcases hf with hf | hf <;> simp only [hf]

/-- A report with one dimension column `ga:a` and a single row `["x"]`. -/
def rowXReport : Report :=
  ⟨some ⟨some ["ga:a"], none⟩, some ⟨some [⟨some ["x"], none⟩]⟩, none⟩

/-- A report with the same header but no `data` at all (so no row list). -/
def noRowsReport : Report := ⟨some ⟨some ["ga:a"], none⟩, none, none⟩

/-- Claim C1 counterexample: alone, the first report contributes one row; but
appending a report with an absent row list makes `resp2frame` return a fresh
empty frame (line 167 `out = pd.DataFrame()` replaces the accumulator), so the
previously accumulated row is not preserved and the table is empty even though
a report had rows. -/
theorem resp2frame_empty_report_wipes :
    resp2frame ⟨some [rowXReport]⟩ = .ok ⟨["a"], [[Value.vStr "x"]]⟩ ∧
    resp2frame ⟨some [rowXReport, noRowsReport]⟩ = .ok ⟨[], []⟩ := ⟨rfl, rfl⟩

/-- Claim C1 (amended): a report whose row list is empty or absent raises no
error, but it does not merely contribute zero rows: it resets the accumulated
table to an empty frame, so the result of flattening the whole response equals
the result of flattening only the reports after it — the reports before it are
discarded. -/
theorem resp2frame_empty_rows_resets (pre post : List Report) (r : Report)
    (t : Table) (hpre : reportsFold emptyTable pre = .ok t) (hfalsy : rowsFalsy r)
    (hhdr : ∃ cols, buildCols (r.columnHeader.getD ⟨none, none⟩) = .ok cols) :
    resp2frame ⟨some (pre ++ r :: post)⟩ = resp2frame ⟨some post⟩ := by
  unfold resp2frame
  simp only [Option.getD_some]
  rw [reportsFold_append, hpre]
  simp only [reportsFold, processReport_falsy t r hfalsy hhdr]

/-- Witness for `resp2frame_empty_rows_resets`: one row-bearing report followed
by a rows-less report flattens to the same (empty) table as no reports. -/
theorem resp2frame_empty_rows_resets_witness :
    resp2frame ⟨some ([rowXReport] ++ noRowsReport :: [])⟩ = resp2frame ⟨some []⟩ :=
  resp2frame_empty_rows_resets [rowXReport] [] noRowsReport
    ⟨["a"], [[Value.vStr "x"]]⟩ rfl (Or.inl rfl) ⟨["a"], rfl⟩

theorem lookupType_err (o : Option String) (e : PyError)
    (h : lookupType o = .error e) : ∃ k, e = .keyError k := by
  cases o with
  | none =>
      simp only [lookupType, Except.error.injEq] at h
      exact ⟨"None", h.symm⟩
  | some t =>
      simp only [lookupType] at h
      cases hl : lookupStr gaTypeLookup t with
      | some v => rw [hl] at h; simp at h
      | none =>
          rw [hl] at h
          simp only [Except.error.injEq] at h
          exact ⟨t, h.symm⟩

theorem headerCols_bad (entries : List MetricHeaderEntry) :
    ∀ (cols : List (Option String)) (tmap : List (Option String × String)),
      (∃ m ∈ entries, typeBad m = true) →
      ∃ k, headerCols entries cols tmap = .error (.keyError k) := by
  induction entries with
  | nil => intro cols tmap h; obtain ⟨m, hm, -⟩ := h; exact absurd hm (by simp)
  | cons m rest ih =>
      intro cols tmap h
      cases hl : lookupType m.type with
      | error e =>
          obtain ⟨k, hk⟩ := lookupType_err m.type e hl
          exact ⟨k, by simp only [headerCols, hl, hk]⟩
      | ok dt =>
          have hm : typeBad m = false := by simp [typeBad, hl]
          obtain ⟨m', hm', hbad⟩ := h
          rcases List.mem_cons.mp hm' with he | hmem
          · rw [he] at hbad; rw [hbad] at hm; exact absurd hm (by simp)
          · obtain ⟨k, hk⟩ := ih (cols ++ [m.name]) (dictSet tmap m.name dt) ⟨m', hmem, hbad⟩
            exact ⟨k, by simp only [headerCols, hl, hk]⟩

/-- Claim C9: a response whose first report declares a metric whose `type` is
not one of the six known strings makes `resp2frame` raise a KeyError while
building the (otherwise unused) declared-dtype map at line 131. -/
theorem resp2frame_unknown_metric_type (r : Report) (rest : List Report)
    (ch : ColumnHeader) (ds : List String) (mh : MetricHeader)
    (hch : r.columnHeader = some ch) (hds : ch.dimensions = some ds)
    (hmh : ch.metricHeader = some mh)
    (hbad : ∃ m ∈ mh.metricHeaderEntries.getD [], typeBad m = true) :
    ∃ k, resp2frame ⟨some (r :: rest)⟩ = .error (.keyError k) := by
  obtain ⟨k, hk⟩ := headerCols_bad _ (ds.map some) [] hbad
  refine ⟨k, ?_⟩
  unfold resp2frame reportsFold processReport buildCols
  simp only [Option.getD_some, hch, hds, hmh, hk]

/-- A report declaring one metric of the unknown type `BOOL`. -/
def badTypeReport : Report :=
  ⟨some ⟨some [], some ⟨some [⟨some "x", some "BOOL"⟩]⟩⟩, none, none⟩

/-- Witness for `resp2frame_unknown_metric_type` at a concrete report whose
metric type `BOOL` is outside the lookup table. -/
theorem resp2frame_unknown_metric_type_witness :
    ∃ k, resp2frame ⟨some [badTypeReport]⟩ = .error (.keyError k) :=
  resp2frame_unknown_metric_type badTypeReport [] ⟨some [], some ⟨some [⟨some "x", some "BOOL"⟩]⟩⟩
    [] ⟨some [⟨some "x", some "BOOL"⟩]⟩ rfl rfl rfl
    ⟨⟨some "x", some "BOOL"⟩, by simp, rfl⟩


/-- A single-report response with one non-numeric-looking dimension column
(`ga:pagePath`) and one INTEGER metric (`ga:sessions`), and a single row whose
dimension value is `a` and whose metric value is `b`. -/
def numResp (a b : String) : Response :=
  ⟨some [⟨some ⟨some ["ga:pagePath"], some ⟨some [⟨some "ga:sessions", some "INTEGER"⟩]⟩⟩,
         some ⟨some [⟨some [a], some [⟨some [b]⟩]⟩]⟩, none⟩]⟩

/-- Claim C2 counterexample: in the row `["abc", "5"]` the value `"5"` parses
as a number, yet it is not coerced — with `axis=1` the coercion works on whole
rows and `errors='ignore'` returns the entire row unchanged as soon as one
cell (here `"abc"`) fails to parse.  Column-wise coercion would have produced
a numeric `sessions` cell. -/
theorem resp2frame_numeric_not_columnwise :
    parseNumStr "5" = some 5 ∧
    resp2frame (numResp "abc" "5") =
      .ok ⟨["pagePath", "sessions"], [[Value.vStr "abc", Value.vStr "5"]]⟩ ∧
    Value.vStr "5" ≠ Value.vNum 5 := ⟨rfl, rfl, by decide⟩

/-- Claim C2 (amended): line 162 applies `pd.to_numeric` with `axis=1`, so the
best-effort coercion is row-wise and all-or-nothing, not column-wise: a row all
of whose values parse as numbers becomes fully numeric, while a row with any
unparseable value is left entirely unchanged — including its numeric-looking
values; no error is raised either way. -/
theorem resp2frame_numeric_rowwise (a b : String) :
    (∀ qa qb, parseNumStr a = some qa → parseNumStr b = some qb →
      resp2frame (numResp a b) =
        .ok ⟨["pagePath", "sessions"], [[Value.vNum qa, Value.vNum qb]]⟩) ∧
    (parseNumStr a = none →
      resp2frame (numResp a b) =
        .ok ⟨["pagePath", "sessions"], [[Value.vStr a, Value.vStr b]]⟩) ∧
    (parseNumStr b = none →
      resp2frame (numResp a b) =
        .ok ⟨["pagePath", "sessions"], [[Value.vStr a, Value.vStr b]]⟩) := by
  have h1 : resp2frame (numResp a b) =
      fixDates (toNumericRows ⟨["pagePath", "sessions"],
        [[Value.vStr a, Value.vStr b]]⟩) := rfl
  have hix : indexOfCol ["pagePath", "sessions"] "date" = none := rfl
  refine ⟨?_, ?_, ?_⟩
  · intro qa qb hpa hpb
    rw [h1]
    simp only [toNumericRows, List.map_cons, List.map_nil, rowNumericAux,
      cellNumeric, hpa, hpb, fixDates, hix, Option.map_some', Option.map_none']
  · intro hpa
    rw [h1]
    simp only [toNumericRows, List.map_cons, List.map_nil, rowNumericAux,
      cellNumeric, hpa, fixDates, hix, Option.map_some', Option.map_none']
  · intro hpb
    rw [h1]
    simp only [toNumericRows, List.map_cons, List.map_nil, rowNumericAux,
      cellNumeric, hpb, fixDates, hix, Option.map_some', Option.map_none']
    cases hpa : parseNumStr a <;> simp

/-- Witness for `resp2frame_numeric_rowwise`: a fully numeric row is coerced,
a mixed row stays textual including its numeric-looking cell. -/
theorem resp2frame_numeric_rowwise_witness :
    resp2frame (numResp "2" "5") =
      .ok ⟨["pagePath", "sessions"], [[Value.vNum 2, Value.vNum 5]]⟩ ∧
    resp2frame (numResp "abc" "5") =
      .ok ⟨["pagePath", "sessions"], [[Value.vStr "abc", Value.vStr "5"]]⟩ :=
  ⟨(resp2frame_numeric_rowwise "2" "5").1 2 5 rfl rfl,
   (resp2frame_numeric_rowwise "abc" "5").2.1 rfl⟩


/-- A single-report response whose only column is `ga:date` (stripped to
`date`) with a single row holding the value `s`. -/
def dateResp (s : String) : Response :=
  ⟨some [⟨some ⟨some ["ga:date"], none⟩, some ⟨some [⟨some [s], none⟩]⟩, none⟩]⟩

/-- The date the `date` cell ends up holding, if any: the numeric coercion of
line 162 runs first, so a numeric-looking value reaches `pd.to_datetime` as an
integer and is rendered back to digits before the `%Y%m%d` parse; a value that
stayed a string is parsed directly.  `none` models the ValueError. -/
def dateCellResult (s : String) : Option (Nat × Nat × Nat) :=
  match parseNumStr s with
  | some q => numDate q
  | none => parseDate8 s

theorem dateResp_step (s : String) :
    resp2frame (dateResp s) =
      fixDates (toNumericRows ⟨["date"], [[Value.vStr s]]⟩) := by
  simp only [resp2frame, dateResp, Option.getD_some, reportsFold, processReport,
    show buildCols ⟨some ["ga:date"], none⟩ = Except.ok ["date"] from rfl,
    show rowsFold ["date"] [⟨some [s], none⟩] ⟨["date"], []⟩ =
      .ok ⟨["date"], [[Value.vStr s]]⟩ from rfl,
    show concatTable emptyTable ⟨["date"], [[Value.vStr s]]⟩ =
      ⟨["date"], [[Value.vStr s]]⟩ from rfl]
  cases hfd : fixDates (toNumericRows ⟨["date"], [[Value.vStr s]]⟩) with
  | ok t => rfl
  | error e => rfl

/-- Claim C5: when a column literally named `date` exists, every value that
parses in the eight-digit `YYYYMMDD` format becomes the corresponding date
value, and any value not in that format makes `resp2frame` raise an
unrecovered ValueError instead of leaving the value unchanged. -/
theorem resp2frame_date_column (s : String) :
    (∀ y m d, dateCellResult s = some (y, m, d) →
      resp2frame (dateResp s) = .ok ⟨["date"], [[Value.vDate y m d]]⟩) ∧
    (dateCellResult s = none → resp2frame (dateResp s) = .error .valueError) := by
  have hix : indexOfCol ["date"] "date" = some 0 := rfl
  rw [dateResp_step]
  constructor
  · intro y m d hd
    cases hp : parseNumStr s with
    | some q =>
        simp only [dateCellResult, hp] at hd
        simp only [toNumericRows, List.map_cons, List.map_nil, rowNumericAux,
          cellNumeric, hp, Option.map_some', fixDates, hix, rowsFixDates,
          fixRowDate, List.get?, cellDate, hd, List.set]
    | none =>
        simp only [dateCellResult, hp] at hd
        simp only [toNumericRows, List.map_cons, List.map_nil, rowNumericAux,
          cellNumeric, hp, Option.map_none', Option.map_some', fixDates, hix,
          rowsFixDates, fixRowDate, List.get?, cellDate, hd, List.set]
  · intro hd
    cases hp : parseNumStr s with
    | some q =>
        simp only [dateCellResult, hp] at hd
        simp only [toNumericRows, List.map_cons, List.map_nil, rowNumericAux,
          cellNumeric, hp, Option.map_some', fixDates, hix, rowsFixDates,
          fixRowDate, List.get?, cellDate, hd, Option.map_none']
    | none =>
        simp only [dateCellResult, hp] at hd
        simp only [toNumericRows, List.map_cons, List.map_nil, rowNumericAux,
          cellNumeric, hp, Option.map_none', fixDates, hix, rowsFixDates,
          fixRowDate, List.get?, cellDate, hd]

/-- Witness for `resp2frame_date_column`: `"20230115"` becomes the date
January 15, 2023, and the malformed `"2023-01-15"` raises. -/
theorem resp2frame_date_column_witness :
    resp2frame (dateResp "20230115") = .ok ⟨["date"], [[Value.vDate 2023 1 15]]⟩ ∧
    resp2frame (dateResp "2023-01-15") = .error .valueError :=
  ⟨(resp2frame_date_column "20230115").1 2023 1 15 (by decide),
   (resp2frame_date_column "2023-01-15").2 (by decide)⟩


/-- A mock page that keeps the loop going: its `reports` list is non-empty and
the first report carries a non-empty continuation token. -/
def pageGood (p : Response) : Prop :=
  ∃ r0 rs, p.reports = some (r0 :: rs) ∧ r0.nextPageToken.getD "" ≠ ""

/-- A mock page that ends the loop: its `reports` list is non-empty and the
first report's continuation token is absent or empty. -/
def pageLast (p : Response) : Prop :=
  ∃ r0 rs, p.reports = some (r0 :: rs) ∧ r0.nextPageToken.getD "" = ""

/-- A query with at least one report-request entry, as the token-injection
statement of line 91 requires. -/
def qryOk (q : Query) : Prop := ∃ r rs, q.reportRequests = some (r :: rs)

theorem setPageToken_ok (q : Query) (tkn : String) (h : qryOk q) :
    ∃ q', setPageToken q tkn = .ok q' ∧ qryOk q' := by
  obtain ⟨r, rs, hr⟩ := h
  refine ⟨{ q with reportRequests := some ({ r with pageToken := some tkn } :: rs) }, ?_, ?_⟩
  · simp [setPageToken, hr]
  · exact ⟨_, rs, rfl⟩

theorem fetchLoop_good_append (front : List Response) :
    ∀ (rest : List Response) (caller qry : Query) (acc : List Report) (n : Nat),
      (∀ p ∈ front, pageGood p) → qryOk qry →
      ∃ qry', qryOk qry' ∧
        fetchLoop (front ++ rest) caller qry acc n =
          fetchLoop rest caller qry'
            (acc ++ (front.map (fun p => p.reports.getD [])).flatten)
            (n + front.length) := by
  induction front with
  | nil =>
      intro rest caller qry acc n _ hq
      exact ⟨qry, hq, by simp⟩
  | cons p ps ih =>
      intro rest caller qry acc n hgood hq
      obtain ⟨r0, rs, hrep, htk⟩ := hgood p (by simp)
      obtain ⟨q1, hq1eq, hq1ok⟩ := setPageToken_ok qry (r0.nextPageToken.getD "") hq
      obtain ⟨qry', hq'ok, hrec⟩ :=
        ih rest caller q1 (acc ++ (r0 :: rs)) (n + 1)
          (fun p' hp' => hgood p' (by simp [hp'])) hq1ok
      refine ⟨qry', hq'ok, ?_⟩
      rw [List.cons_append]
      simp only [fetchLoop, hrep, if_neg htk, hq1eq]
      rw [hrec]
      have hacc : acc ++ (r0 :: rs) ++ (ps.map (fun p => p.reports.getD [])).flatten =
          acc ++ ((p :: ps).map (fun p => p.reports.getD [])).flatten := by
        simp [hrep, List.append_assoc]
      have hn : n + 1 + ps.length = n + (p :: ps).length := by
        simp
        omega
      rw [hacc, hn]

theorem fetchLoop_caller (pages : List Response) :
    ∀ (caller qry : Query) (acc : List Report) (n : Nat),
      (fetchLoop pages caller qry acc n).2 = caller := by
  induction pages with
  | nil => intros; rfl
  | cons p ps ih =>
      intro caller qry acc n
      cases hp : p.reports with
      | none => simp only [fetchLoop, hp]
      | some reps =>
          cases reps with
          | nil => simp only [fetchLoop, hp]
          | cons r0 rest' =>
              simp only [fetchLoop, hp]
              by_cases htk : r0.nextPageToken.getD "" = ""
              · rw [if_pos htk]
              · rw [if_neg htk]
                cases hst : setPageToken qry (r0.nextPageToken.getD "") with
                | error e => simp only [hst]
                | ok qry' =>
                    simp only [hst]
                    exact ih caller qry' (acc ++ r0 :: rest') (n + 1)

/-- Claim C6: `execute_query` never mutates the caller's query object: for
both values of `all_results`, and in particular across a multi-page pagination
loop (which advances the token only on the deep copy made at line 82), the
caller's query after the call is exactly what it was before. -/
theorem execute_query_query_unchanged (query : Query) (allResults : Bool)
    (pages : List Response) :
    (executeQuery query allResults pages).2 = query := by
  cases allResults with
  | true => exact fetchLoop_caller pages query query [] 0
  | false =>
      cases pages with
      | nil => rfl
      | cons p ps => rfl

/-- Claim C4: with `all_results`, against a mock page sequence whose first N
pages each carry a non-empty continuation token on their first report and
whose page N+1 carries an empty or absent one, `execute_query` issues exactly
N+1 requests (later mock pages are never requested), reads the token only from
the first report of each received page, and returns the concatenation of all
received pages' report lists in arrival order, without deduplication or
reordering. -/
theorem execute_query_pagination (front : List Response) (last : Response)
    (rest : List Response) (query : Query)
    (hfront : ∀ p ∈ front, pageGood p) (hlast : pageLast last) (hq : qryOk query) :
    (executeQuery query true (front ++ last :: rest)).1 =
      .ok (front.length + 1,
        ⟨some ((front.map (fun p => p.reports.getD [])).flatten ++ last.reports.getD [])⟩) := by
  obtain ⟨qry', -, heq⟩ :=
    fetchLoop_good_append front (last :: rest) query query [] 0 hfront hq
  obtain ⟨l0, ls, hrep, htk⟩ := hlast
  show (fetchLoop (front ++ last :: rest) query query [] 0).1 = _
  rw [heq]
  simp only [fetchLoop, hrep, if_pos htk, Option.getD_some, List.nil_append,
    Nat.zero_add]

/-- Witness for `execute_query_pagination`: one token-bearing page followed by
a token-free page gives exactly 2 requests and both pages' reports in order. -/
theorem execute_query_pagination_witness :
    (executeQuery ⟨some [⟨none, []⟩], []⟩ true
        [⟨some [⟨none, none, some "t1"⟩]⟩, ⟨some [⟨none, none, none⟩]⟩]).1 =
      .ok (2, ⟨some [⟨none, none, some "t1"⟩, ⟨none, none, none⟩]⟩) :=
  execute_query_pagination [⟨some [⟨none, none, some "t1"⟩]⟩]
    ⟨some [⟨none, none, none⟩]⟩ [] ⟨some [⟨none, []⟩], []⟩
    (by
      intro p hp
      rw [List.mem_singleton] at hp
      subst hp
      exact ⟨⟨none, none, some "t1"⟩, [], rfl, by decide⟩)
    ⟨⟨none, none, none⟩, [], rfl, rfl⟩
    ⟨⟨none, []⟩, [], rfl⟩

/-- Claim C10: with `all_results`, a fetched page whose `reports` key is
missing raises a KeyError (line 87) and one whose `reports` list is empty
raises an IndexError (line 89): the loop does not treat such a page as a clean
end of pagination. -/
theorem execute_query_bad_page (front : List Response) (bad : Response)
    (rest : List Response) (query : Query)
    (hfront : ∀ p ∈ front, pageGood p) (hq : qryOk query) :
    (bad.reports = none →
      (executeQuery query true (front ++ bad :: rest)).1 =
        .error (.keyError "reports")) ∧
    (bad.reports = some [] →
      (executeQuery query true (front ++ bad :: rest)).1 = .error .indexError) := by
  obtain ⟨qry', -, heq⟩ :=
    fetchLoop_good_append front (bad :: rest) query query [] 0 hfront hq
  constructor <;> intro hb <;>
    (show (fetchLoop (front ++ bad :: rest) query query [] 0).1 = _
     rw [heq]
     simp only [fetchLoop, hb])

/-- Witness for `execute_query_bad_page`: a first page with no `reports` key
raises KeyError; a first page with an empty `reports` list raises IndexError. -/
theorem execute_query_bad_page_witness :
    (executeQuery ⟨some [⟨none, []⟩], []⟩ true [⟨none⟩]).1 =
      .error (.keyError "reports") ∧
    (executeQuery ⟨some [⟨none, []⟩], []⟩ true [⟨some []⟩]).1 =
      .error .indexError :=
  ⟨(execute_query_bad_page [] ⟨none⟩ [] ⟨some [⟨none, []⟩], []⟩
      (by intro p hp; cases hp) ⟨⟨none, []⟩, [], rfl⟩).1 rfl,
   (execute_query_bad_page [] ⟨some []⟩ [] ⟨some [⟨none, []⟩], []⟩
      (by intro p hp; cases hp) ⟨⟨none, []⟩, [], rfl⟩).2 rfl⟩


theorem headerCols_ok (entries : List MetricHeaderEntry) :
    ∀ (cols : List (Option String)) (tmap : List (Option String × String)),
      (∀ m ∈ entries, typeBad m = false) →
      ∃ tm, headerCols entries cols tmap =
        .ok (cols ++ entries.map (fun m => m.name), tm) := by
  induction entries with
  | nil => intro cols tmap _; exact ⟨tmap, by simp [headerCols]⟩
  | cons m rest ih =>
      intro cols tmap h
      have hm := h m (by simp)
      cases hl : lookupType m.type with
      | error e => simp [typeBad, hl] at hm
      | ok dt =>
          obtain ⟨tm, htm⟩ := ih (cols ++ [m.name]) (dictSet tmap m.name dt)
            (fun m' hm' => h m' (by simp [hm']))
          refine ⟨tm, ?_⟩
          simp only [headerCols, hl, htm, List.map_cons]
          rw [List.append_assoc]
          rfl

theorem stripCols_ok (l : List (Option String)) (h : ∀ x ∈ l, x.isSome) :
    stripCols l = .ok (l.map (fun x => stripGa (x.getD ""))) := by
  induction l with
  | nil => rfl
  | cons x rest ih =>
      cases x with
      | none => exact absurd (h none (by simp)) (by simp)
      | some s =>
          have hih := ih (fun y hy => h y (by simp [hy]))
          simp only [stripCols, hih, List.map_cons, Option.getD_some]

theorem drowLoop_ok_keys (cols : List String) :
    ∀ (vals : List Value) (i : Nat) (d : List (String × Value)),
      i + cols.length ≤ vals.length →
      ∃ d', drowLoop cols vals i d = .ok d' ∧
        ∀ k ∈ d'.map Prod.fst, k ∈ d.map Prod.fst ∨ k ∈ cols := by
  induction cols with
  | nil => intro vals i d _; exact ⟨d, rfl, fun k hk => Or.inl hk⟩
  | cons c cs ih =>
      intro vals i d hlen
      have hi : i < vals.length := by simp at hlen; omega
      have hget : vals.get? i = some (vals.get ⟨i, hi⟩) := List.get?_eq_get hi
      obtain ⟨d', hd', hkeys⟩ := ih vals (i + 1) (dictSet d c (vals.get ⟨i, hi⟩))
        (by simp at hlen ⊢; omega)
      refine ⟨d', ?_, ?_⟩
      · simp only [drowLoop, hget, hd']
      · intro k hk
        rcases hkeys k hk with h1 | h1
        · rcases dictSet_keys d c (vals.get ⟨i, hi⟩) k h1 with h2 | h2
          · exact Or.inl h2
          · exact Or.inr (by simp [h2])
        · exact Or.inr (by simp [h1])

theorem filter_not_mem_nil (super : List String) :
    ∀ (cs2 : List String), (∀ c ∈ cs2, c ∈ super) →
      cs2.filter (fun c => !(decide (c ∈ super))) = [] := by
  intro cs2
  induction cs2 with
  | nil => intro h; rfl
  | cons c rest ih =>
      intro h
      rw [List.filter_cons]
      have hc : (!(decide (c ∈ super))) = false := by
        rw [decide_eq_true (h c (by simp))]
        rfl
      rw [hc]
      simp only [Bool.false_eq_true, if_false]
      exact ih (fun c' hc' => h c' (by simp [hc']))

theorem concat_columns_sub (t : Table) (cs2 : List String)
    (rows2 : List (List Value)) (h : ∀ c ∈ cs2, c ∈ t.columns) :
    (concatTable t ⟨cs2, rows2⟩).columns = t.columns := by
  simp [concatTable, filter_not_mem_nil t.columns cs2 h]

theorem rowsFold_columns (cols : List String) :
    ∀ (rows : List RowData) (df : Table), df.columns = cols →
      (∀ row ∈ rows, ∃ rl, rowList row = .ok rl ∧ cols.length ≤ rl.length) →
      ∃ df', rowsFold cols rows df = .ok df' ∧ df'.columns = cols := by
  intro rows
  induction rows with
  | nil => intro df hdf _; exact ⟨df, rfl, hdf⟩
  | cons row rest ih =>
      intro df hdf h
      obtain ⟨rl, hrl, hlen⟩ := h row (by simp)
      obtain ⟨drow, hdrow, hkeys⟩ := drowLoop_ok_keys cols (rl.map Value.vStr) 0 []
        (by simpa using hlen)
      have hsub : ∀ c ∈ drow.map Prod.fst, c ∈ df.columns := by
        intro c hc
        rcases hkeys c hc with h1 | h1
        · simp at h1
        · rw [hdf]; exact h1
      obtain ⟨df', hdf', hdfc⟩ :=
        ih (concatTable df ⟨drow.map Prod.fst, [drow.map Prod.snd]⟩)
          (by rw [concat_columns_sub df _ _ hsub]; exact hdf)
          (fun r hr => h r (by simp [hr]))
      refine ⟨df', ?_, hdfc⟩
      simp only [rowsFold, hrl, buildDrow, hdrow, hdf']

theorem concat_empty_columns (t : Table) :
    (concatTable emptyTable t).columns = t.columns := by
  simp [concatTable, emptyTable, List.filter]

/-- Claim C8: for a report with dimension header `ds` and metric header
entries `ments` (well-formed: named, known types, enough values in each row,
no `date` column, at least one row), the flattened table's columns are all
dimension names first, in header order, followed by all metric names in
metric-header order (each with `ga:` occurrences stripped). -/
theorem resp2frame_column_order (ds : List String) (ments : List MetricHeaderEntry)
    (rows0 : List RowData) (hne : rows0 ≠ [])
    (hnames : ∀ m ∈ ments, (m.name).isSome)
    (htypes : ∀ m ∈ ments, typeBad m = false)
    (hrows : ∀ row ∈ rows0, ∃ rl, rowList row = .ok rl ∧
      (ds ++ ments.map (fun m => m.name.getD "")).length ≤ rl.length)
    (hnodate : indexOfCol ((ds ++ ments.map (fun m => m.name.getD "")).map stripGa)
      "date" = none) :
    ∃ t, resp2frame
        ⟨some [⟨some ⟨some ds, some ⟨some ments⟩⟩, some ⟨some rows0⟩, none⟩]⟩ =
        .ok t ∧
      t.columns = (ds ++ ments.map (fun m => m.name.getD "")).map stripGa := by
  set cols := (ds ++ ments.map (fun m => m.name.getD "")).map stripGa with hcols
  obtain ⟨tm, htm⟩ := headerCols_ok ments (ds.map some) [] htypes
  have hbc : buildCols ⟨some ds, some ⟨some ments⟩⟩ = .ok cols := by
    simp only [buildCols, Option.getD_some, htm]
    rw [stripCols_ok _ ?hsome]
    case hsome =>
      intro x hx
      rcases List.mem_append.mp hx with h1 | h1
      · obtain ⟨y, -, hy⟩ := List.mem_map.mp h1
        rw [← hy]
        rfl
      · obtain ⟨m, hm, hy⟩ := List.mem_map.mp h1
        rw [← hy]
        exact hnames m hm
    simp [hcols, List.map_append, List.map_map, Function.comp_def]
  rcases rows0 with - | ⟨r, rs⟩
  · exact absurd rfl hne
  have hrows' : ∀ row ∈ r :: rs, ∃ rl, rowList row = .ok rl ∧ cols.length ≤ rl.length := by
    intro row hrow
    obtain ⟨rl, h1, h2⟩ := hrows row hrow
    exact ⟨rl, h1, by rw [hcols, List.length_map]; exact h2⟩
  obtain ⟨df', hdf', hdfc⟩ := rowsFold_columns cols (r :: rs) ⟨cols, []⟩ rfl hrows'
  have hc2 : (toNumericRows (concatTable emptyTable df')).columns = cols := by
    show (concatTable emptyTable df').columns = cols
    rw [concat_empty_columns, hdfc]
  refine ⟨toNumericRows (concatTable emptyTable df'), ?_, hc2⟩
  simp only [resp2frame, Option.getD_some, reportsFold, processReport, hbc, hdf']
  simp only [fixDates, hc2, hnodate]

/-- Witness for `resp2frame_column_order`: dimensions `[A, B]` and metrics
`[C (INTEGER), D (FLOAT)]` give columns exactly `[A, B, C, D]`. -/
theorem resp2frame_column_order_witness :
    ∃ t, resp2frame
        ⟨some [⟨some ⟨some ["A", "B"],
                some ⟨some [⟨some "C", some "INTEGER"⟩, ⟨some "D", some "FLOAT"⟩]⟩⟩,
          some ⟨some [⟨some ["a1", "b1"], some [⟨some ["1", "2.5"]⟩]⟩]⟩, none⟩]⟩ =
        .ok t ∧
      t.columns = ["A", "B", "C", "D"] := by
  obtain ⟨t, ht, hc⟩ := resp2frame_column_order ["A", "B"]
    [⟨some "C", some "INTEGER"⟩, ⟨some "D", some "FLOAT"⟩]
    [⟨some ["a1", "b1"], some [⟨some ["1", "2.5"]⟩]⟩]
    (by decide)
    (by decide)
    (by decide)
    (by
      intro row hrow
      rw [List.mem_singleton] at hrow
      subst hrow
      exact ⟨["a1", "b1", "1", "2.5"], rfl, by decide⟩)
    rfl
  exact ⟨t, ht, by rw [hc]; rfl⟩

end Google2Pandas
